import Mathlib

/-!
Verification development for the `icon` crate (XDG icon theme lookup).

The Rust sources are embedded shallowly:
* `u32` values are modelled as `Nat`; each `u32` arithmetic operation that can
  overflow or underflow is modelled as a checked operation returning
  `Option Nat`, where `none` stands for the arithmetic panic of a Rust debug
  build (an `u32` subtraction `a - b` with `b > a`, or a product or sum
  reaching `2 ^ 32`).
* Paths and OS strings are modelled as `String`; the `std::path` helpers
  `file_name`, `file_stem` and `extension` are reimplemented on the final
  `/`-separated component, following Rust's split-at-the-last-dot rule.
  Non-UTF-8 byte sequences are not representable in this model.
* The filesystem is a `List String` of existing paths; `Path::exists` is
  membership in that list.
* The external `freedesktop_entry_parser` crate (out of scope for the spec) is
  modelled by handing `ThemeIndex.parse` the already-tokenized list of
  sections; its own I/O and tokenizer errors are not modelled.
* Fallible lookups return `Option`, fallible parses return
  `Except ThemeParseError`.
-/

/-- Rust `u32::abs_diff`. -/
def abs_diff (a b : Nat) : Nat :=
  if a ≤ b then b - a else a - b

/-- Checked `u32` subtraction: `none` models the debug-build panic (release
builds wrap) when the subtrahend exceeds the minuend. -/
def checkedSub (a b : Nat) : Option Nat :=
  if b ≤ a then some (a - b) else none

/-- Checked `u32` addition: `none` models the overflow panic. -/
def checkedAdd (a b : Nat) : Option Nat :=
  if a + b < 2 ^ 32 then some (a + b) else none

/-- Checked `u32` multiplication: `none` models the overflow panic. -/
def checkedMul (a b : Nat) : Option Nat :=
  if a * b < 2 ^ 32 then some (a * b) else none

/-- Rust `u32::MAX`, the initial `min_dist` of the nearest-match pass. -/
def u32MAX : Nat := 2 ^ 32 - 1

/-- Rust `char::to_ascii_lowercase`: only `A`..`Z` are lowered. -/
def asciiLower (c : Char) : Char :=
  if 'A' ≤ c ∧ c ≤ 'Z' then Char.ofNat (c.toNat + 32) else c

/-- Rust `str::eq_ignore_ascii_case`. -/
def eqIgnoreAsciiCase (a b : String) : Bool :=
  a.data.map asciiLower == b.data.map asciiLower

/-- Split a reversed file name at its last dot (the first dot of the reversed
list): `some (reversed extension, reversed stem)`, or `none` when there is no
dot or the only dot is the leading dot of a hidden file (Rust's
`file_stem`/`extension` rule). -/
def revSplitDot : List Char → Option (List Char × List Char)
  | [] => none
  | c :: rest =>
    if c = '.' then
      if rest.isEmpty then none else some ([], rest)
    else
      (revSplitDot rest).map (fun p => (c :: p.1, p.2))

/-- Rust `Path::file_name` on our string paths: the part after the last `/`. -/
def pathFileName (p : String) : String :=
  String.mk ((p.data.reverse.takeWhile (fun c => c ≠ '/')).reverse)

/-- Rust `Path::extension`: the part of the file name after its last dot,
when that dot is not the leading character of the file name. -/
def pathExtension (p : String) : Option String :=
  (revSplitDot (pathFileName p).data.reverse).map (fun q => String.mk q.1.reverse)

/-- Rust `Path::file_stem`: the file name up to its last (non-leading) dot. -/
def pathFileStem (p : String) : Option String :=
  let name := pathFileName p
  if name.isEmpty then none
  else
    match revSplitDot name.data.reverse with
    | none => some name
    | some q => some (String.mk q.2.reverse)

/-- Rust `<u32 as FromStr>::from_str`: an optional leading `+`, then at least
one ASCII digit, and the value must fit in `u32`. -/
def parseU32 (s : String) : Option Nat :=
  let chars :=
    match s.data with
    | c :: rest => if c = '+' then rest else c :: rest
    | [] => []
  if chars.isEmpty then none
  else if chars.all Char.isDigit then
    let v := chars.foldl (fun acc c => acc * 10 + (c.toNat - 48)) 0
    if v < 2 ^ 32 then some v else none
  else none

/-- Helper for `splitChar`: accumulate the current piece (reversed). -/
def splitCharAux (sep : Char) : List Char → List Char → List String
  | [], acc => [String.mk acc.reverse]
  | c :: rest, acc =>
    if c = sep then String.mk acc.reverse :: splitCharAux sep rest []
    else splitCharAux sep rest (c :: acc)

/-- Rust `str::split(sep)` collected to a list: the empty string yields
`[""]`, separators at the ends yield empty pieces. -/
def splitChar (sep : Char) (s : String) : List String :=
  splitCharAux sep s.data []

/-- Rust `<bool as FromStr>::from_str`: exactly `true` or `false`. -/
def parseBool (s : String) : Option Bool :=
  if s == "true" then some true
  else if s == "false" then some false
  else none

/-- `icon.rs`: `FileType`. The source names its second variant `Xmp` (the XDG
specification's format is `xpm`). -/
inductive FileType where
  | Png
  | Xmp
  | Svg
deriving DecidableEq

/-- `icon.rs`: `FileType::from_path_ext`. In the model the extension is always
valid UTF-8, so `OsStr::to_str` always succeeds. -/
def FileType.from_path_ext (path : String) : Option FileType :=
  match pathExtension path with
  | none => none
  | some ext =>
    if eqIgnoreAsciiCase ext "png" then some FileType.Png
    else if eqIgnoreAsciiCase ext "xmp" then some FileType.Xmp
    else if eqIgnoreAsciiCase ext "svg" then some FileType.Svg
    else none

/-- `icon.rs`: `FileType::ext`. -/
def FileType.ext : FileType → String
  | .Png => "png"
  | .Xmp => "xmp"
  | .Svg => "svg"

/-- `icon.rs`: `IconFile`. -/
structure IconFile where
  path : String
  name : String
  file_type : FileType
deriving DecidableEq

/-- `icon.rs`: `IconFile::from_path`. -/
def IconFile.from_path (path : String) : Option IconFile :=
  match FileType.from_path_ext path with
  | none => none
  | some file_type =>
    match pathFileStem path with
    | none => none
    | some name => some { path := path, name := name, file_type := file_type }

/-- `theme.rs`: `DirectoryType`. -/
inductive DirectoryType where
  | Fixed
  | Scalable
  | Threshold
deriving DecidableEq

/-- `theme.rs`: `TryFrom<&str> for DirectoryType` (`Err(())` as `none`). -/
def DirectoryType.try_from (value : String) : Option DirectoryType :=
  if value == "Fixed" then some DirectoryType.Fixed
  else if value == "Scalable" then some DirectoryType.Scalable
  else if value == "Threshold" then some DirectoryType.Threshold
  else none

/-- `theme.rs`: `DirectoryIndex`. -/
structure DirectoryIndex where
  directory_name : String
  is_scaled_dir : Bool
  size : Nat
  scale : Nat
  context : Option String
  directory_type : DirectoryType
  max_size : Nat
  min_size : Nat
  threshold : Nat
deriving DecidableEq

/-- `theme.rs`: `DirectoryIndex::size_distance`. Every `u32` operation of the
source is modelled checked; `none` is the arithmetic panic of a debug build.
In particular the Threshold branch computes `(size - threshold) * scale`
with a plain unsigned subtraction. -/
def DirectoryIndex.size_distance (d : DirectoryIndex) (icon_size icon_scale : Nat) :
    Option Nat := do
  let size ← checkedMul icon_size icon_scale
  match d.directory_type with
  | .Fixed | .Scalable => do
    let nominal ← checkedMul d.size d.scale
    pure (abs_diff nominal size)
  | .Threshold => do
    let sub ← checkedSub d.size d.threshold
    let lower ← checkedMul sub d.scale
    let add ← checkedAdd d.size d.threshold
    let higher ← checkedMul add d.scale
    if size < lower then do
      let m ← checkedMul d.min_size d.scale
      pure (abs_diff size m)
    else if size > higher then do
      let m ← checkedMul d.max_size d.scale
      pure (abs_diff size m)
    else
      pure 0

/-- `theme.rs`: `DirectoryIndex::matches_size`. -/
def DirectoryIndex.matches_size (d : DirectoryIndex) (icon_size icon_scale : Nat) : Bool :=
  if d.scale != icon_scale then false
  else
    match d.directory_type with
    | .Fixed => d.size == icon_size
    | .Scalable => decide (d.min_size ≤ icon_size ∧ icon_size ≤ d.max_size)
    | .Threshold => decide (abs_diff d.size icon_size ≤ d.threshold)

/-- `theme.rs`: `ThemeIndex`. The field `example` of the source is named
`example_` here (`example` is a Lean keyword). -/
structure ThemeIndex where
  name : String
  comment : String
  inherits : List String
  directories : List DirectoryIndex
  hidden : Bool
  example_ : Option String
deriving DecidableEq

/-- `theme.rs`: `ThemeInfo`. Paths are modelled as strings. -/
structure ThemeInfo where
  internal_name : String
  base_dirs : List String
  index_location : String
  index : ThemeIndex

/-- `theme.rs`: `Theme { info, inherits_from: Vec<Arc<Theme>> }`. The `Arc`
sharing is irrelevant to lookup semantics, so parents are held directly. -/
inductive Theme where
  | mk (info : ThemeInfo) (inherits_from : List Theme)

/-- Field accessor for `Theme.info`. -/
def Theme.info : Theme → ThemeInfo
  | .mk i _ => i

/-- Field accessor for `Theme.inherits_from`. -/
def Theme.inherits_from : Theme → List Theme
  | .mk _ ps => ps

/-- `theme.rs`: the `EXTENSIONS` constant of `find_icon_here` — note the
source's `"xmp"`. -/
def EXTENSIONS : List String := ["png", "xmp", "svg"]

/-- Rust `PathBuf::join` with a relative component. -/
def joinPath (a b : String) : String := a ++ "/" ++ b

/-- `theme.rs`: the exact-match pass of `find_icon_here` — the triple loop
over base directories, size-matching sub-directories and candidate file
names, returning at the first existing icon file. -/
def pass1 (fs : List String) (base_dirs : List String) (exact_sub_dirs : List DirectoryIndex)
    (file_names : List String) : Option IconFile :=
  base_dirs.findSome? (fun base_dir =>
    exact_sub_dirs.findSome? (fun sub_dir =>
      file_names.findSome? (fun file_name =>
        let path := joinPath (joinPath base_dir sub_dir.directory_name) file_name
        if fs.contains path then IconFile.from_path path else none)))

/-- `theme.rs`: the body of the nearest-match inner loop of `find_icon_here`:
for each existing candidate file the accumulator `(min_dist, best_icon)` is
overwritten — the loop does not stop at the first hit. -/
def tryFileNames (fs : List String) (base_dir : String) (sub_dir : DirectoryIndex)
    (file_names : List String) (distance : Nat) (acc : Nat × Option IconFile) :
    Nat × Option IconFile :=
  file_names.foldl (fun acc2 file_name =>
    let path := joinPath (joinPath base_dir sub_dir.directory_name) file_name
    if fs.contains path then
      match IconFile.from_path path with
      | some file => (distance, some file)
      | none => acc2
    else acc2) acc

/-- `theme.rs`: the nearest-match pass of `find_icon_here`. `size_distance`
is evaluated for every sub-directory, so its arithmetic panic (modelled as
`none`) aborts the whole pass. -/
def pass2 (fs : List String) (base_dirs : List String) (sub_dirs : List DirectoryIndex)
    (file_names : List String) (size scale : Nat) : Option (Option IconFile) := do
  let final ← base_dirs.foldlM (fun acc base_dir =>
    sub_dirs.foldlM (fun acc2 sub_dir => do
      let distance ← sub_dir.size_distance size scale
      if distance < acc2.1 then
        pure (tryFileNames fs base_dir sub_dir file_names distance acc2)
      else
        pure acc2) acc) (u32MAX, (none : Option IconFile))
  pure final.2

/-- `theme.rs`: `Theme::find_icon_here`. The outer `Option` is the arithmetic
panic; the inner one is the lookup result. -/
def Theme.find_icon_here (fs : List String) (t : Theme) (icon_name : String)
    (size scale : Nat) : Option (Option IconFile) :=
  let file_names := EXTENSIONS.map (fun ext => icon_name ++ "." ++ ext)
  let base_dirs := t.info.base_dirs
  let sub_dirs := t.info.index.directories
  let exact_sub_dirs := sub_dirs.filter (fun sub_dir => sub_dir.matches_size size scale)
  match pass1 fs base_dirs exact_sub_dirs file_names with
  | some file => some (some file)
  | none => pass2 fs base_dirs sub_dirs file_names size scale

/-- `theme.rs`: the `find_map` over `inherits_from` in `Theme::find_icon` —
each parent is searched with `find_icon_here`, never with `find_icon`. -/
def findMapHere (fs : List String) (icon_name : String) (size scale : Nat) :
    List Theme → Option (Option IconFile)
  | [] => some none
  | p :: rest =>
    match Theme.find_icon_here fs p icon_name size scale with
    | none => none
    | some (some file) => some (some file)
    | some none => findMapHere fs icon_name size scale rest

/-- `theme.rs`: `Theme::find_icon`. -/
def Theme.find_icon (fs : List String) (t : Theme) (icon_name : String)
    (size scale : Nat) : Option (Option IconFile) :=
  match t.find_icon_here fs icon_name size scale with
  | none => none
  | some (some file) => some (some file)
  | some none => findMapHere fs icon_name size scale t.inherits_from

/-- `theme.rs`: `Icons`. The `HashMap<OsString, Arc<Theme>>` is modelled as an
association list. -/
structure Icons where
  standalone_icons : List IconFile
  themes : List (String × Theme)

/-- `theme.rs`: `Icons::theme`. -/
def Icons.theme (self : Icons) (theme_name : String) : Option Theme :=
  (self.themes.find? (fun kv => kv.1 == theme_name)).map (fun kv => kv.2)

/-- `theme.rs`: `Icons::find_standalone_icon`. -/
def Icons.find_standalone_icon (self : Icons) (icon_name : String) : Option IconFile :=
  self.standalone_icons.find? (fun ico => pathFileStem ico.path == some icon_name)

/-- `theme.rs`: `Icons::find_icon`. The `?` after the theme lookup returns
`None` (modelled `some none`) before the standalone fallback is reached. -/
def Icons.find_icon (fs : List String) (self : Icons) (icon_name : String)
    (size scale : Nat) (theme : String) : Option (Option IconFile) :=
  match (self.theme theme).orElse (fun _ => self.theme "hicolor") with
  | none => some none
  | some t =>
    match Theme.find_icon fs t icon_name size scale with
    | none => none
    | some (some file) => some (some file)
    | some none => some (self.find_standalone_icon icon_name)

/-- `theme.rs`: `ThemeParseError`. The payloads of the wrapped external
errors are dropped; only the variant matters here. -/
inductive ThemeParseError where
  | NotAnIconTheme
  | MissingRequiredAttribute (name : String)
  | NotUtf8
  | ParseBoolError
  | ParseNumError
  | InvalidDirectoryType
  | ParseError
deriving DecidableEq

/-- `freedesktop_entry_parser::low_level::AttrBytes`, with the bytes decoded
(names and values are UTF-8 in this model). -/
structure AttrBytes where
  name : String
  value : String
  param : Option String
deriving DecidableEq

/-- `freedesktop_entry_parser::low_level::SectionBytes`. -/
structure SectionBytes where
  title : String
  attrs : List AttrBytes
deriving DecidableEq

/-- `theme.rs`: `find_attr`. In the model values are UTF-8, so the
`Utf8Error` branch of the source cannot arise and the result is a plain
`Option`. -/
def find_attr (sec : SectionBytes) (name : String) : Option String :=
  (sec.attrs.find? (fun attr => attr.name == name && attr.param.isNone)).map
    (fun attr => attr.value)

/-- `theme.rs`: `find_attr_req`. -/
def find_attr_req (sec : SectionBytes) (name : String) :
    Except ThemeParseError String :=
  match find_attr sec name with
  | some v => .ok v
  | none => .error (.MissingRequiredAttribute name)

/-- `theme.rs`: the `find_attr(..)?.map(|s| s.parse()).transpose()?` pattern
for an optional numeric attribute. -/
def parseOptNum (sec : SectionBytes) (name : String) :
    Except ThemeParseError (Option Nat) :=
  match find_attr sec name with
  | none => .ok none
  | some s =>
    match parseU32 s with
    | some v => .ok (some v)
    | none => .error .ParseNumError

/-- `theme.rs`: the `Type` attribute handling of `DirectoryIndex::parse`:
absent defaults to `Threshold`, an unrecognized value is
`InvalidDirectoryType`. -/
def parseDirectoryType (sec : SectionBytes) : Except ThemeParseError DirectoryType :=
  match find_attr sec "Type" with
  | none => .ok DirectoryType.Threshold
  | some s =>
    match DirectoryType.try_from s with
    | some t => .ok t
    | none => .error .InvalidDirectoryType

/-- `theme.rs`: the `Hidden` attribute handling of `ThemeIndex::parse`. -/
def parseHidden (sec : SectionBytes) : Except ThemeParseError Bool :=
  match find_attr sec "Hidden" with
  | none => .ok false
  | some s =>
    match parseBool s with
    | some b => .ok b
    | none => .error .ParseBoolError

/-- `theme.rs`: `DirectoryIndex::parse`. The `?` chains of the source are
written as explicit matches. No relation between `MinSize`, `Size` and
`MaxSize` is ever checked. -/
def DirectoryIndex.parse (sec : SectionBytes) : Except ThemeParseError DirectoryIndex :=
  match find_attr_req sec "Size" with
  | .error e => .error e
  | .ok size_str =>
  match parseU32 size_str with
  | none => .error .ParseNumError
  | some size =>
  match parseOptNum sec "Scale" with
  | .error e => .error e
  | .ok scale_opt =>
  let scale := scale_opt.getD 1
  let context := find_attr sec "Context"
  match parseDirectoryType sec with
  | .error e => .error e
  | .ok directory_type =>
  match parseOptNum sec "MaxSize" with
  | .error e => .error e
  | .ok max_size_opt =>
  let max_size := max_size_opt.getD size
  match parseOptNum sec "MinSize" with
  | .error e => .error e
  | .ok min_size_opt =>
  let min_size := min_size_opt.getD size
  match parseOptNum sec "Threshold" with
  | .error e => .error e
  | .ok threshold_opt =>
  let threshold := threshold_opt.getD 2
  .ok {
    directory_name := sec.title
    is_scaled_dir := scale != 1
    size := size
    scale := scale
    context := context
    directory_type := directory_type
    max_size := max_size
    min_size := min_size
    threshold := threshold
  }

/-- `theme.rs`: the `filter_map` + `collect::<Result<Vec<_>, _>>` over the
sections after the first in `ThemeIndex::parse`: a section whose title is
neither in `Directories` nor in `ScaledDirectories` is skipped; a scaled
directory gets `is_scaled_dir` forced to `true`; the first parse error
aborts. -/
def parseDirs (directories : List String) (scaled_directories : Option (List String)) :
    List SectionBytes → Except ThemeParseError (List DirectoryIndex)
  | [] => .ok []
  | sec :: rest =>
    let title := sec.title
    let is_scaled_dir := (scaled_directories.map (fun d => d.contains title)).getD false
    if !(directories.contains title) && !is_scaled_dir then
      parseDirs directories scaled_directories rest
    else
      match DirectoryIndex.parse sec with
      | .error e => .error e
      | .ok index =>
        let index := if is_scaled_dir then { index with is_scaled_dir := true } else index
        match parseDirs directories scaled_directories rest with
        | .error e => .error e
        | .ok rest_dirs => .ok (index :: rest_dirs)

/-- `theme.rs`: `ThemeIndex::parse`, over the tokenized section list. The
first section is taken as the theme header; its title is never inspected.
`Comment` defaults to the empty string, `Inherits` is comma-split (absent
gives the empty list), `Directories` is required. -/
def ThemeIndex.parse : List SectionBytes → Except ThemeParseError ThemeIndex
  | [] => .error .NotAnIconTheme
  | icon_theme_section :: rest =>
    match find_attr_req icon_theme_section "Name" with
    | .error e => .error e
    | .ok name =>
    let comment := (find_attr icon_theme_section "Comment").getD ""
    let inherits := (find_attr icon_theme_section "Inherits").toList.flatMap
      (fun s => splitChar ',' s)
    match find_attr_req icon_theme_section "Directories" with
    | .error e => .error e
    | .ok dirs_str =>
    let directories_list := splitChar ',' dirs_str
    let scaled_directories := (find_attr icon_theme_section "ScaledDirectories").map
      (fun s => splitChar ',' s)
    match parseHidden icon_theme_section with
    | .error e => .error e
    | .ok hidden =>
    let example_ := find_attr icon_theme_section "Example"
    match parseDirs directories_list scaled_directories rest with
    | .error e => .error e
    | .ok directories =>
    .ok {
      name := name
      comment := comment
      inherits := inherits
      directories := directories
      hidden := hidden
      example_ := example_
    }

/-- `search_dir.rs`: `SearchDirectories`. -/
structure SearchDirectories where
  dirs : List String
deriving DecidableEq

/-- Rust `Vec::append(&mut self, other: &mut Vec<T>)`: moves every element of
`other` to the end of `self`, leaving `other` empty. Returns the pair
(`self` after, `other` after). -/
def vecAppend (self other : List α) : List α × List α := (self ++ other, [])

/-- `search_dir.rs`: `SearchDirectories::append`. The source collects the
given directories into `extra_dirs`, drains them into `self.dirs` with
`Vec::append`, drops `self`, and returns `extra_dirs.into()` — the vector
that `Vec::append` just emptied. -/
def SearchDirectories.append (self : SearchDirectories) (directories : List String) :
    SearchDirectories :=
  let extra_dirs := directories
  let st := vecAppend self.dirs extra_dirs
  SearchDirectories.mk st.2

/-- `search_dir.rs` uses `crate::theme::ThemeDescriptor`, declared in a module
that is not among the repository's files; per the spec's data model it is
`{ internal_name, base_dirs, index_location, index : ThemeIndex }` (the shape
of `theme.rs`'s `ThemeInfo`). Only `index.inherits` is read by
`resolve_only`'s chain computation. -/
structure ThemeDescriptor where
  internal_name : String
  base_dirs : List String
  index_location : String
  index : ThemeIndex

/-- `search_dir.rs`: `theme_names.iter().position(|name| ...)` — the index of
the first matching name. -/
def findThemeIdx (theme_names : List String) (target : String) : Option Nat :=
  theme_names.findIdx? (fun name => name == target)

/-- `search_dir.rs`: one step of the parent loop of `resolve_only`'s BFS: a
parent name that resolves to a surviving index not yet in the chain is pushed
at the back. -/
def pushParent (theme_names : List String) (chain : List Nat) (parent : String) :
    List Nat :=
  match findThemeIdx theme_names parent with
  | none => chain
  | some parent_idx =>
    if chain.contains parent_idx then chain else chain ++ [parent_idx]

/-- `search_dir.rs`: the `for parent in &description.index.inherits` loop. -/
def addParents (theme_names : List String) : List String → List Nat → List Nat
  | [], chain => chain
  | parent :: rest, chain =>
    addParents theme_names rest (pushParent theme_names chain parent)

/-- `search_dir.rs`: the cursor-driven BFS `while let Some(node_idx) =
chain.get(cursor)` of `resolve_only`. The Rust loop terminates because the
chain never holds an index twice and every index is a position in
`theme_names`, so at most `theme_names.length` cursor steps read an element;
the fuel in `bfsChain` is that bound plus one. -/
def bfsLoop (theme_names : List String) (theme_descriptions : List (Option ThemeDescriptor)) :
    Nat → List Nat → Nat → List Nat
  | 0, chain, _ => chain
  | fuel + 1, chain, cursor =>
    match chain[cursor]? with
    | none => chain
    | some node_idx =>
      let chain2 :=
        match theme_descriptions[node_idx]? with
        | some (some description) => addParents theme_names description.index.inherits chain
        | _ => chain
      bfsLoop theme_names theme_descriptions fuel chain2 (cursor + 1)

/-- `search_dir.rs`: the BFS part of one chain of `resolve_only`: start from
`[theme_idx]` and run the cursor loop to exhaustion. -/
def bfsChain (theme_names : List String) (theme_descriptions : List (Option ThemeDescriptor))
    (theme_idx : Nat) : List Nat :=
  bfsLoop theme_names theme_descriptions (theme_names.length + 1) [theme_idx] 0

/-- `search_dir.rs`: one chain of `resolve_only`, hicolor handling included:
after the BFS, when `hicolor` survives and is not yet in the chain it is
appended last. -/
def resolve_chain (theme_names : List String)
    (theme_descriptions : List (Option ThemeDescriptor)) (theme_idx : Nat) : List Nat :=
  let chain := bfsChain theme_names theme_descriptions theme_idx
  match findThemeIdx theme_names "hicolor" with
  | some hicolor_idx =>
    if chain.contains hicolor_idx then chain else chain ++ [hicolor_idx]
  | none => chain

/-- `search_dir.rs`: the `theme_chains` vector of `resolve_only`: one chain
per surviving theme index. -/
def resolve_chains (theme_names : List String)
    (theme_descriptions : List (Option ThemeDescriptor)) : List (List Nat) :=
  (List.range theme_names.length).map (resolve_chain theme_names theme_descriptions)

/-! Helper lemmas for the chain computation of `resolve_only` (claim C1). -/

/-- Pushing one parent preserves duplicate-freedom of a chain. -/
lemma pushParent_nodup (theme_names : List String) (chain : List Nat) (parent : String)
    (h : chain.Nodup) : (pushParent theme_names chain parent).Nodup := by
  unfold pushParent
  cases findThemeIdx theme_names parent with
  | none => exact h
  | some pidx =>
    by_cases hm : pidx ∈ chain
    · simp [hm, h]
    · simp [hm, List.nodup_append, h]

/-- Pushing a list of parents preserves duplicate-freedom of a chain. -/
lemma addParents_nodup (theme_names : List String) :
    ∀ (ps : List String) (chain : List Nat), chain.Nodup →
      (addParents theme_names ps chain).Nodup := by
  intro ps
  induction ps with
  | nil => intro chain h; exact h
  | cons p rest ih =>
    intro chain h
    exact ih _ (pushParent_nodup theme_names chain p h)

/-- The cursor loop of the BFS preserves duplicate-freedom, whatever the
fuel. -/
lemma bfsLoop_nodup (theme_names : List String) (descs : List (Option ThemeDescriptor)) :
    ∀ (fuel : Nat) (chain : List Nat) (cursor : Nat), chain.Nodup →
      (bfsLoop theme_names descs fuel chain cursor).Nodup := by
  intro fuel
  induction fuel with
  | zero => intro chain cursor h; exact h
  | succ f ih =>
    intro chain cursor h
    simp only [bfsLoop]
    split
    · exact h
    · split
      · exact ih _ (cursor + 1) (addParents_nodup theme_names _ chain h)
      · exact ih chain (cursor + 1) h

/-- The BFS part of a chain is duplicate-free. -/
lemma bfsChain_nodup (theme_names : List String) (descs : List (Option ThemeDescriptor))
    (theme_idx : Nat) : (bfsChain theme_names descs theme_idx).Nodup :=
  bfsLoop_nodup theme_names descs _ [theme_idx] 0 (by simp)

/-- C1. Every chain computed by `resolve_only` is duplicate-free (no ancestor
index is visited twice), and whenever `hicolor` is among the surviving theme
names (at index `h`) it is a member of every chain, appended as the last
element exactly when the BFS over `Inherits` did not already reach it. -/
theorem resolve_chain_nodup_and_hicolor (theme_names : List String)
    (theme_descriptions : List (Option ThemeDescriptor)) (theme_idx : Nat) :
    (resolve_chain theme_names theme_descriptions theme_idx).Nodup ∧
    ∀ h, findThemeIdx theme_names "hicolor" = some h →
      h ∈ resolve_chain theme_names theme_descriptions theme_idx ∧
      (h ∉ bfsChain theme_names theme_descriptions theme_idx →
        resolve_chain theme_names theme_descriptions theme_idx
          = bfsChain theme_names theme_descriptions theme_idx ++ [h]) := by
  have hb := bfsChain_nodup theme_names theme_descriptions theme_idx
  unfold resolve_chain
  cases hf : findThemeIdx theme_names "hicolor" with
  | none =>
    dsimp only
    exact ⟨hb, fun h hh => Option.noConfusion hh⟩
  | some hidx =>
    dsimp only
    by_cases hm : hidx ∈ bfsChain theme_names theme_descriptions theme_idx
    · have hif : (if (bfsChain theme_names theme_descriptions theme_idx).contains hidx = true
          then bfsChain theme_names theme_descriptions theme_idx
          else bfsChain theme_names theme_descriptions theme_idx ++ [hidx])
          = bfsChain theme_names theme_descriptions theme_idx := by simp [hm]
      rw [hif]
      refine ⟨hb, ?_⟩
      intro h hh
      injection hh with he
      subst he
      exact ⟨hm, fun hc => absurd hm hc⟩
    · have hif : (if (bfsChain theme_names theme_descriptions theme_idx).contains hidx = true
          then bfsChain theme_names theme_descriptions theme_idx
          else bfsChain theme_names theme_descriptions theme_idx ++ [hidx])
          = bfsChain theme_names theme_descriptions theme_idx ++ [hidx] := by simp [hm]
      rw [hif]
      constructor
      · simp [List.nodup_append, hb, hm]
      · intro h hh
        injection hh with he
        subst he
        exact ⟨by simp, fun _ => rfl⟩

/-- A two-theme universe for the C1 witness: `mytheme` inherits `hicolor`. -/
def w1names : List String := ["mytheme", "hicolor"]

/-- Descriptors of the C1 witness universe. -/
def w1descs : List (Option ThemeDescriptor) :=
  [some ⟨"mytheme", [], "", ⟨"My", "", ["hicolor"], [], false, none⟩⟩,
   some ⟨"hicolor", [], "", ⟨"Hicolor", "", [], [], false, none⟩⟩]

/-- Witness for C1 at the concrete universe: the chain of `mytheme` is
duplicate-free and holds the index of `hicolor`. -/
theorem resolve_chain_nodup_and_hicolor_witness :
    (resolve_chain w1names w1descs 0).Nodup ∧ 1 ∈ resolve_chain w1names w1descs 0 := by
  have t := resolve_chain_nodup_and_hicolor w1names w1descs 0
  exact ⟨t.1, (t.2 1 rfl).1⟩

/-- C2. The Threshold branch of `size_distance` is not total: a directory
with the default `threshold = 2` and `size = 1` (type `Threshold`) makes
`(size - threshold) * scale` underflow, so the function panics in a debug
build instead of returning a `u32`; the model returns `none`. -/
theorem size_distance_threshold_underflow_panics :
    DirectoryIndex.size_distance ⟨"16x16/apps", false, 1, 1, none, .Threshold, 1, 1, 2⟩ 1 1
      = none := rfl

/-- C3. A Threshold directory with `size = 1`, `threshold = 2` accepts the
requested size 2 through `matches_size`, yet `size_distance` does not return
`0` there: the subtraction `size - threshold` underflows (debug panic,
modelled `none`). -/
theorem matches_size_but_size_distance_panics :
    DirectoryIndex.matches_size ⟨"1x1/apps", false, 1, 1, none, .Threshold, 1, 1, 2⟩ 2 1
        = true ∧
      DirectoryIndex.size_distance ⟨"1x1/apps", false, 1, 1, none, .Threshold, 1, 1, 2⟩ 2 1
        = none :=
  ⟨rfl, rfl⟩

/-- C4. `IconFile::from_path` rejects the XDG extension `xpm` and accepts the
source's misspelling `xmp` instead. -/
theorem from_path_rejects_xpm_accepts_xmp :
    IconFile.from_path "icon.xpm" = none ∧
      IconFile.from_path "icon.xmp" = some ⟨"icon.xmp", "icon", FileType.Xmp⟩ :=
  ⟨rfl, rfl⟩

/-- Filesystem of the C5 scenario: the winning directory holds `foo.xpm` and
`foo.svg`. -/
def c5fs : List String := ["b/d/foo.xpm", "b/d/foo.svg"]

/-- The one (exactly matching) directory of the C5 scenario. -/
def c5dir : DirectoryIndex := ⟨"d", false, 16, 1, none, .Fixed, 16, 16, 2⟩

/-- The theme of the C5 scenario. -/
def c5theme : Theme :=
  Theme.mk ⟨"t", ["b"], "b/t/index.theme", ⟨"T", "", [], [c5dir], false, none⟩⟩ []

/-- C5. When the winning directory holds `foo.xpm` and `foo.svg`, the lookup
returns the `svg` file, not the `xpm` one: the probe list is
`png`, `xmp` (the source's misspelling), `svg`, so a real `.xpm` file is
never found. -/
theorem find_icon_here_returns_svg_over_xpm_file :
    Theme.find_icon_here c5fs c5theme "foo" 16 1
      = some (some ⟨"b/d/foo.svg", "foo", FileType.Svg⟩) := rfl

/-- Standalone icon of the C6 scenarios. -/
def c6file : IconFile := ⟨"/usr/share/pixmaps/htop.png", "htop", FileType.Png⟩

/-- An `Icons` with one standalone icon and no theme at all. -/
def c6icons : Icons := ⟨[c6file], []⟩

/-- Counterexample to C6 as stated: no theme contains `htop` (there are no
themes) and a standalone `htop.png` exists, yet `find_icon` returns nothing,
because the failed theme lookup returns early before the standalone
fallback. -/
theorem find_icon_skips_standalone_when_no_theme :
    Icons.find_standalone_icon c6icons "htop" = some c6file ∧
      Icons.find_icon [] c6icons "htop" 16 1 "hicolor" = some none :=
  ⟨rfl, rfl⟩

/-- C6 (amended). When the requested theme name (or, failing that,
`hicolor`) does resolve to a theme, and that theme's own lookup finds
nothing (without panicking), and a standalone icon with the requested stem
exists, the standalone icon is returned. -/
theorem icons_find_icon_standalone_fallback (fs : List String) (icons : Icons)
    (icon_name : String) (size scale : Nat) (theme_name : String) (t : Theme) (f : IconFile)
    (h1 : (icons.theme theme_name).orElse (fun _ => icons.theme "hicolor") = some t)
    (h2 : Theme.find_icon fs t icon_name size scale = some none)
    (h3 : icons.find_standalone_icon icon_name = some f) :
    Icons.find_icon fs icons icon_name size scale theme_name = some (some f) := by
  simp only [Icons.find_icon, h1, h2, h3]

/-- Standalone icon of the C6 witness. -/
def w6file : IconFile := ⟨"/usr/share/pixmaps/foo.png", "foo", FileType.Png⟩

/-- An empty `hicolor` theme for the C6 witness. -/
def w6theme : Theme := Theme.mk ⟨"hicolor", [], "", ⟨"hicolor", "", [], [], false, none⟩⟩ []

/-- The `Icons` of the C6 witness: one standalone icon, one empty theme. -/
def w6icons : Icons := ⟨[w6file], [("hicolor", w6theme)]⟩

/-- Witness for the amended C6: with an (empty) `hicolor` theme present, the
standalone `foo.png` is returned. -/
theorem icons_find_icon_standalone_fallback_witness :
    Icons.find_icon [] w6icons "foo" 16 1 "Adwaita" = some (some w6file) :=
  icons_find_icon_standalone_fallback [] w6icons "foo" 16 1 "Adwaita" w6theme w6file
    rfl rfl rfl

/-- Counterexample to C7 as stated: an input whose first section is titled
`Not Icon Theme` (with `Name` and `Directories` present) parses
successfully — the title is never checked. -/
theorem themeIndex_parse_accepts_wrong_first_title :
    ThemeIndex.parse [⟨"Not Icon Theme", [⟨"Name", "X", none⟩, ⟨"Directories", "d", none⟩]⟩]
      = .ok ⟨"X", "", [], [], false, none⟩ := rfl

/-- C7 (amended). `ThemeIndex::parse` returns `NotAnIconTheme` when the input
has no first section; the first section's title is never examined, so a
first section with any title whatsoever is treated as the theme header. -/
theorem themeIndex_parse_notanicontheme_only_for_empty :
    ThemeIndex.parse [] = Except.error ThemeParseError.NotAnIconTheme ∧
    ∀ (t1 t2 : String) (attrs : List AttrBytes) (rest : List SectionBytes),
      ThemeIndex.parse (⟨t1, attrs⟩ :: rest) = ThemeIndex.parse (⟨t2, attrs⟩ :: rest) :=
  ⟨rfl, fun _ _ _ _ => rfl⟩

/-- Sections of the C8 counterexample: `Size=10` with `MinSize=100`. -/
def c8sections : List SectionBytes :=
  [⟨"Icon Theme", [⟨"Name", "Broken", none⟩, ⟨"Directories", "apps", none⟩]⟩,
   ⟨"apps", [⟨"Size", "10", none⟩, ⟨"MinSize", "100", none⟩]⟩]

/-- The directory the C8 counterexample parses to: `min_size = 100 > size = 10`. -/
def c8dir : DirectoryIndex := ⟨"apps", false, 10, 1, none, .Threshold, 10, 100, 2⟩

/-- Counterexample to C8 as stated: a theme whose directory section carries
`MinSize=100` and `Size=10` parses successfully, and the parsed directory
violates `min_size ≤ size`. Nothing validates the three fields against each
other. -/
theorem themeIndex_parse_allows_min_above_size :
    ThemeIndex.parse c8sections = .ok ⟨"Broken", "", [], [c8dir], false, none⟩ ∧
      ¬ (c8dir.min_size ≤ c8dir.size) :=
  ⟨rfl, by decide⟩

/-- When a directory section carries neither `MinSize` nor `MaxSize`, the
parsed `DirectoryIndex` has both equal to `Size` (claim C8's defaulting). -/
lemma dirIndexParse_minmax_default (sec : SectionBytes) (d : DirectoryIndex)
    (hmin : find_attr sec "MinSize" = none) (hmax : find_attr sec "MaxSize" = none)
    (hp : DirectoryIndex.parse sec = .ok d) :
    d.min_size = d.size ∧ d.max_size = d.size := by
  have pmin : parseOptNum sec "MinSize" = .ok none := by simp [parseOptNum, hmin]
  have pmax : parseOptNum sec "MaxSize" = .ok none := by simp [parseOptNum, hmax]
  unfold DirectoryIndex.parse at hp
  rw [pmin, pmax] at hp
  cases h1 : find_attr_req sec "Size" with
  | error e => simp [h1] at hp
  | ok size_str =>
    rw [h1] at hp
    dsimp only at hp
    cases h2 : parseU32 size_str with
    | none => simp [h2] at hp
    | some size =>
      rw [h2] at hp
      dsimp only at hp
      cases h3 : parseOptNum sec "Scale" with
      | error e => simp [h3] at hp
      | ok scale_opt =>
        rw [h3] at hp
        dsimp only at hp
        cases h4 : parseDirectoryType sec with
        | error e => simp [h4] at hp
        | ok directory_type =>
          rw [h4] at hp
          dsimp only at hp
          cases h5 : parseOptNum sec "Threshold" with
          | error e => simp [h5] at hp
          | ok threshold_opt =>
            rw [h5] at hp
            dsimp only at hp
            injection hp with he
            subst he
            simp

/-- `parseDirs` only emits directories whose `min_size` and `max_size`
defaulted to `size`, when no section carries `MinSize` or `MaxSize`. -/
lemma parseDirs_minmax_default (directories : List String)
    (scaled_directories : Option (List String)) :
    ∀ (secs : List SectionBytes) (ds : List DirectoryIndex),
      (∀ sec ∈ secs, find_attr sec "MinSize" = none ∧ find_attr sec "MaxSize" = none) →
      parseDirs directories scaled_directories secs = .ok ds →
      ∀ d ∈ ds, d.min_size = d.size ∧ d.max_size = d.size := by
  intro secs
  induction secs with
  | nil =>
    intro ds _ hp
    simp only [parseDirs] at hp
    injection hp with he
    subst he
    intro d hd
    cases hd
  | cons sec rest ih =>
    intro ds hall hp
    simp only [parseDirs] at hp
    split at hp
    · exact ih ds (fun s hs => hall s (List.mem_cons_of_mem sec hs)) hp
    · cases hd : DirectoryIndex.parse sec with
      | error e => rw [hd] at hp; simp at hp
      | ok index =>
        rw [hd] at hp
        dsimp only at hp
        cases hr : parseDirs directories scaled_directories rest with
        | error e => rw [hr] at hp; simp at hp
        | ok rest_dirs =>
          rw [hr] at hp
          dsimp only at hp
          injection hp with he
          subst he
          intro d hd2
          have hsec := hall sec (List.mem_cons_self sec rest)
          have hbase := dirIndexParse_minmax_default sec index hsec.1 hsec.2 hd
          rcases List.mem_cons.mp hd2 with h | h
          · subst h
            split
            · exact hbase
            · exact hbase
          · exact ih rest_dirs (fun s hs => hall s (List.mem_cons_of_mem sec hs)) hr d h

/-- C8 (amended). Every `DirectoryIndex` produced by a successful
`ThemeIndex::parse` from sections that carry neither a `MinSize` nor a
`MaxSize` attribute satisfies `min_size = size = max_size` (so in particular
`min_size ≤ size ≤ max_size`); when the attributes are present their values
are taken as parsed, with no validation against `size`. -/
theorem themeIndex_parse_minmax_defaulted (sections : List SectionBytes) (idx : ThemeIndex)
    (hall : ∀ sec ∈ sections, find_attr sec "MinSize" = none ∧ find_attr sec "MaxSize" = none)
    (hp : ThemeIndex.parse sections = .ok idx) :
    ∀ d ∈ idx.directories, d.min_size = d.size ∧ d.max_size = d.size := by
  cases sections with
  | nil => simp [ThemeIndex.parse] at hp
  | cons icon_theme_section rest =>
    simp only [ThemeIndex.parse] at hp
    cases h1 : find_attr_req icon_theme_section "Name" with
    | error e => rw [h1] at hp; simp at hp
    | ok name =>
      rw [h1] at hp
      dsimp only at hp
      cases h2 : find_attr_req icon_theme_section "Directories" with
      | error e => rw [h2] at hp; simp at hp
      | ok dirs_str =>
        rw [h2] at hp
        dsimp only at hp
        cases h3 : parseHidden icon_theme_section with
        | error e => rw [h3] at hp; simp at hp
        | ok hidden =>
          rw [h3] at hp
          dsimp only at hp
          cases h4 : parseDirs (splitChar ',' dirs_str)
              ((find_attr icon_theme_section "ScaledDirectories").map
                (fun s => splitChar ',' s)) rest with
          | error e => rw [h4] at hp; simp at hp
          | ok directories =>
            rw [h4] at hp
            dsimp only at hp
            injection hp with he
            subst he
            intro d hd
            exact parseDirs_minmax_default _ _ rest directories
              (fun s hs => hall s (List.mem_cons_of_mem icon_theme_section hs)) h4 d hd

/-- Sections of the C8 witness: one directory section with only `Size`. -/
def w8sections : List SectionBytes :=
  [⟨"Icon Theme", [⟨"Name", "X", none⟩, ⟨"Directories", "apps", none⟩]⟩,
   ⟨"apps", [⟨"Size", "16", none⟩]⟩]

/-- The directory the C8 witness parses to. -/
def w8dir : DirectoryIndex := ⟨"apps", false, 16, 1, none, .Threshold, 16, 16, 2⟩

/-- The index the C8 witness parses to. -/
def w8idx : ThemeIndex := ⟨"X", "", [], [w8dir], false, none⟩

/-- Witness for the amended C8 at a concrete theme. -/
theorem themeIndex_parse_minmax_defaulted_witness :
    w8dir.min_size = w8dir.size ∧ w8dir.max_size = w8dir.size :=
  themeIndex_parse_minmax_defaulted w8sections w8idx (by decide) rfl w8dir (by decide)

/-- Replacing each parent by a copy stripped of its own parents does not
change `findMapHere`: parents are searched with `find_icon_here`, which reads
only their `info`. -/
lemma findMapHere_strip (fs : List String) (icon_name : String) (size scale : Nat) :
    ∀ ps : List Theme,
      findMapHere fs icon_name size scale (ps.map (fun p => Theme.mk p.info []))
        = findMapHere fs icon_name size scale ps := by
  intro ps
  induction ps with
  | nil => rfl
  | cons p rest ih =>
    simp only [List.map, findMapHere]
    rw [show Theme.find_icon_here fs (Theme.mk p.info []) icon_name size scale
          = Theme.find_icon_here fs p icon_name size scale from rfl, ih]

/-- Filesystem of the C9 scenario: only the grandparent's directory holds the
icon. -/
def fs9 : List String := ["c/d/foo.png"]

/-- Grandparent theme of the C9 scenario, whose directory holds `foo.png`. -/
def theme9C : Theme :=
  Theme.mk ⟨"c", ["c"], "", ⟨"C", "", [], [⟨"d", false, 16, 1, none, .Fixed, 16, 16, 2⟩],
    false, none⟩⟩ []

/-- Parent theme of the C9 scenario (no directories), inheriting `theme9C`. -/
def theme9B : Theme := Theme.mk ⟨"b", ["b"], "", ⟨"B", "", [], [], false, none⟩⟩ [theme9C]

/-- Root theme of the C9 scenario (no directories), inheriting `theme9B`. -/
def theme9A : Theme := Theme.mk ⟨"a", ["a"], "", ⟨"A", "", [], [], false, none⟩⟩ [theme9B]

/-- C9. `Theme::find_icon` consults only the theme itself and its direct
parents, each via `find_icon_here`: its result is unchanged when every
parent is stripped of its own parents; and in a concrete three-level chain
where only the grandparent's directory holds `foo.png`, the lookup from the
root finds nothing even though the grandparent's own `find_icon_here`
finds the file. -/
theorem theme_find_icon_consults_only_direct_parents :
    (∀ (fs : List String) (info : ThemeInfo) (parents : List Theme) (icon_name : String)
        (size scale : Nat),
      Theme.find_icon fs (Theme.mk info parents) icon_name size scale
        = Theme.find_icon fs (Theme.mk info (parents.map (fun p => Theme.mk p.info [])))
            icon_name size scale) ∧
    Theme.find_icon fs9 theme9A "foo" 16 1 = some none ∧
    Theme.find_icon_here fs9 theme9C "foo" 16 1
      = some (some ⟨"c/d/foo.png", "foo", FileType.Png⟩) := by
  refine ⟨?_, rfl, rfl⟩
  intro fs info parents icon_name size scale
  simp only [Theme.find_icon]
  rw [show Theme.find_icon_here fs (Theme.mk info (parents.map (fun p => Theme.mk p.info [])))
        icon_name size scale
        = Theme.find_icon_here fs (Theme.mk info parents) icon_name size scale from rfl]
  cases Theme.find_icon_here fs (Theme.mk info parents) icon_name size scale with
  | none => rfl
  | some o =>
    cases o with
    | none =>
      simp only [Theme.inherits_from]
      exact (findMapHere_strip fs icon_name size scale parents).symm
    | some f => rfl

/-- C10. `SearchDirectories::append` returns the vector that `Vec::append`
just drained: its `dirs` list is empty, not the concatenation of the old
directories with the new ones. -/
theorem search_directories_append_returns_drained_vec :
    (SearchDirectories.append ⟨["/home/user/.icons"]⟩ ["/opt/icons"]).dirs = [] ∧
      SearchDirectories.append ⟨["/home/user/.icons"]⟩ ["/opt/icons"]
        ≠ SearchDirectories.mk ["/home/user/.icons", "/opt/icons"] :=
  ⟨rfl, by decide⟩
